import Mathlib

/-!
Shallow embedding of the react-input-buffer event-rate-reduction pipeline:
the sampling buffer (src/buffer/SamplingBuffer.ts), the polling-rate
detector (src/detection/PollingRateDetector.ts), the metrics collector
(src/metrics/MetricsCollector.ts) and the yield scheduler
(src/scheduler/YieldScheduler.ts).  JavaScript numbers are embedded as
rationals, `Math.round` as the half-up rounding JavaScript uses, and the
host environment (requestAnimationFrame scheduling, scheduler.yield
availability and failure) as explicit state and parameters.
-/

namespace InputBuffer

/-- JavaScript `Math.round`: rounds half-way cases toward positive infinity. -/
def jsRound (x : ℚ) : ℤ := ⌊x + 1/2⌋

/-! ## Data model (src/types.ts) -/

/-- Polling rate classification (`'standard' | 'high' | 'unknown'`). -/
inductive PollingRate where
  | standard
  | high
  | unknown
deriving DecidableEq, Repr

/-- Task scheduling priority (`'user-visible' | 'background'`). -/
inductive Priority where
  | userVisible
  | background
deriving DecidableEq, Repr

/-- Accumulated deltas for scroll/wheel events. -/
structure AccumulatedDeltas where
  deltaX : ℚ
  deltaY : ℚ
  deltaZ : ℚ
deriving DecidableEq, Repr

/-- A DOM event as the buffer sees it: a `type` tag plus the numeric delta
fields read off a `WheelEvent` (zero for non-wheel events). -/
structure DomEvent where
  type : String
  deltaX : ℚ := 0
  deltaY : ℚ := 0
  deltaZ : ℚ := 0
deriving DecidableEq, Repr

/-! ## SamplingBuffer (src/buffer/SamplingBuffer.ts)

The mutable fields of the class become a state record; `rafId` collapses to
the Boolean `rafScheduled` (whether a `requestAnimationFrame` callback is
currently scheduled and not cancelled).  `flush` returns the optional
delivery made to the flush callback.  `fireFlush` models the host firing
the scheduled animation-frame callback: a callback that was never
scheduled, or was cancelled by `cancelAnimationFrame`, does not run. -/

structure SamplingBuffer where
  latestEvent : Option DomEvent
  accumulatedDeltas : AccumulatedDeltas
  rafScheduled : Bool
  shouldAccumulateDeltas : Bool
  isActive : Bool
deriving DecidableEq, Repr

/-- Constructor state: `new SamplingBuffer(onFlush, accumulateDeltas)`. -/
def mkSamplingBuffer (accumulateDeltas : Bool) : SamplingBuffer :=
  { latestEvent := none
    accumulatedDeltas := ⟨0, 0, 0⟩
    rafScheduled := false
    shouldAccumulateDeltas := accumulateDeltas
    isActive := true }

/-- `isScrollEvent`: the event's type is `wheel` or `scroll`. -/
def isScrollEvent (e : DomEvent) : Bool :=
  e.type == "wheel" || e.type == "scroll"

/-- `buffer(event)`: store the event as the latest, accumulate deltas for
scroll/wheel events when enabled, and schedule a flush if none is. -/
def buffer (s : SamplingBuffer) (e : DomEvent) : SamplingBuffer :=
  if !s.isActive then s
  else
    let s1 := { s with latestEvent := some e }
    let s2 :=
      if s1.shouldAccumulateDeltas && isScrollEvent e then
        { s1 with accumulatedDeltas :=
            ⟨s1.accumulatedDeltas.deltaX + e.deltaX,
             s1.accumulatedDeltas.deltaY + e.deltaY,
             s1.accumulatedDeltas.deltaZ + e.deltaZ⟩ }
      else s1
    if s2.rafScheduled then s2 else { s2 with rafScheduled := true }

/-- Submitting a whole sequence of events, in order. -/
def bufferAll (s : SamplingBuffer) (es : List DomEvent) : SamplingBuffer :=
  es.foldl buffer s

/-- A delivery made to the flush callback: the event together with the
optional accumulated-deltas argument. -/
def Delivery := DomEvent × Option AccumulatedDeltas
deriving instance DecidableEq, Repr for Delivery

/-- `destroy()`: deactivate, cancel any scheduled flush, clear state. -/
def destroy (s : SamplingBuffer) : SamplingBuffer :=
  { s with isActive := false
           rafScheduled := false
           latestEvent := none
           accumulatedDeltas := ⟨0, 0, 0⟩ }

/-- `flush()`: if an event is pending, deliver it (with the accumulated
deltas exactly when accumulation is enabled and the pending event is
scroll-typed) and reset the pending state; always clear `rafId`. -/
def flush (s : SamplingBuffer) : SamplingBuffer × Option Delivery :=
  match s.latestEvent with
  | some e =>
      let deltas :=
        if s.shouldAccumulateDeltas && isScrollEvent e then
          some s.accumulatedDeltas
        else none
      ({ s with latestEvent := none
                accumulatedDeltas := ⟨0, 0, 0⟩
                rafScheduled := false },
       some (e, deltas))
  | none => ({ s with rafScheduled := false }, none)

/-- The host fires the scheduled animation-frame callback: `flush` runs
only if a flush is actually scheduled (not cancelled). -/
def fireFlush (s : SamplingBuffer) : SamplingBuffer × Option Delivery :=
  if s.rafScheduled then flush s else (s, none)

/-- Actions a client can perform on a buffer, including the host firing a
scheduled flush. -/
inductive BufAct where
  | submit (e : DomEvent)
  | fire
  | teardown
deriving Repr

/-- One action's effect on the buffer state. -/
def stepBuf (s : SamplingBuffer) : BufAct → SamplingBuffer
  | .submit e => buffer s e
  | .fire => (fireFlush s).1
  | .teardown => destroy s

/-- Running a sequence of actions from a freshly constructed buffer. -/
def runBufActs (accumulateDeltas : Bool) (as : List BufAct) : SamplingBuffer :=
  as.foldl stepBuf (mkSamplingBuffer accumulateDeltas)

/-! ## PollingRateDetector (src/detection/PollingRateDetector.ts)

`performance.now()` values become explicit rational inputs to
`detectPollingRate`; the class constants are `SAMPLE_SIZE = 10`,
`HIGH_POLLING_THRESHOLD = 1` (ms) and `HIGH_POLLING_COUNT_THRESHOLD = 5`. -/

structure PollingRateDetector where
  eventTimestamps : List ℚ
  cachedPollingRate : Option PollingRate
  detectedHz : ℤ
deriving DecidableEq, Repr

/-- Constructor state: `new PollingRateDetector()`. -/
def mkDetector : PollingRateDetector :=
  { eventTimestamps := [], cachedPollingRate := none, detectedHz := 0 }

/-- `calculateDeltas`: differences between consecutive entries of the
timestamp window. -/
def calculateDeltas (ts : List ℚ) : List ℚ :=
  List.zipWith (fun b a => b - a) ts.tail ts

/-- `estimateHz`: `round(1000 / avgDelta)` when the average delta is
positive, otherwise 0 (also 0 for an empty delta list). -/
def estimateHz (deltas : List ℚ) : ℤ :=
  if deltas.length = 0 then 0
  else
    let avgDelta := deltas.sum / (deltas.length : ℚ)
    if 0 < avgDelta then jsRound (1000 / avgDelta) else 0

/-- `detectPollingRate(event)`: return the cached classification if any;
otherwise push the current time into the 10-entry sliding window, return
`unknown` while the window is not full, and once it is full classify as
`high` exactly when at least 5 consecutive-sample deltas are below 1 ms,
caching the classification and the estimated Hz. -/
def detectPollingRate (s : PollingRateDetector) (now : ℚ) :
    PollingRateDetector × PollingRate :=
  match s.cachedPollingRate with
  | some r => (s, r)
  | none =>
      let ts1 := s.eventTimestamps ++ [now]
      let ts2 := if 10 < ts1.length then ts1.tail else ts1
      if ts2.length < 10 then
        ({ s with eventTimestamps := ts2 }, .unknown)
      else
        let deltas := calculateDeltas ts2
        let highPollingCount := (deltas.filter (fun d => d < 1)).length
        let rate : PollingRate :=
          if 5 ≤ highPollingCount then .high else .standard
        ({ eventTimestamps := ts2
           cachedPollingRate := some rate
           detectedHz := estimateHz deltas },
         rate)

/-- `reset()`: clear the window, the cached classification and the Hz. -/
def resetDetector (_s : PollingRateDetector) : PollingRateDetector :=
  mkDetector

/-- A sequence of `detectPollingRate` calls, returning the final state and
the classification returned by each call in order. -/
def detectAll : PollingRateDetector → List ℚ → PollingRateDetector × List PollingRate
  | s, [] => (s, [])
  | s, t :: ts =>
      let p := detectPollingRate s t
      let q := detectAll p.1 ts
      (q.1, p.2 :: q.2)

/-! ## MetricsCollector (src/metrics/MetricsCollector.ts) -/

/-- The `Metrics` record reported by the collector. -/
structure Metrics where
  pollingRate : PollingRate
  detectedHz : ℤ
  rawEventCount : ℕ
  flushedEventCount : ℕ
  reductionPercentage : ℤ
  currentFPS : ℤ
  averageProcessingTime : ℚ
  timestamp : ℚ
deriving DecidableEq, Repr

/-- Full collector state: the metrics record plus the two rolling windows. -/
structure MetricsCollector where
  metrics : Metrics
  frameTimestamps : List ℚ
  eventProcessingTimes : List ℚ
deriving DecidableEq, Repr

/-- Constructor state: `new MetricsCollector()` at clock value `now`. -/
def mkCollector (now : ℚ) : MetricsCollector :=
  { metrics :=
      { pollingRate := .unknown
        detectedHz := 0
        rawEventCount := 0
        flushedEventCount := 0
        reductionPercentage := 0
        currentFPS := 0
        averageProcessingTime := 0
        timestamp := now }
    frameTimestamps := []
    eventProcessingTimes := [] }

/-- `updateReductionPercentage`: 0 when no raw events were seen, otherwise
`Math.round((filtered / rawEventCount) * 100)`. -/
def updateReductionPercentage (m : Metrics) : Metrics :=
  if m.rawEventCount = 0 then { m with reductionPercentage := 0 }
  else
    let filtered : ℚ := (m.rawEventCount : ℚ) - (m.flushedEventCount : ℚ)
    { m with reductionPercentage :=
        jsRound (filtered / (m.rawEventCount : ℚ) * 100) }

/-- `updateAverageProcessingTime`: arithmetic mean of the rolling window. -/
def updateAverageProcessingTime (c : MetricsCollector) : MetricsCollector :=
  if c.eventProcessingTimes.length = 0 then
    { c with metrics := { c.metrics with averageProcessingTime := 0 } }
  else
    { c with metrics := { c.metrics with averageProcessingTime :=
        c.eventProcessingTimes.sum / (c.eventProcessingTimes.length : ℚ) } }

/-- `recordRawEvent()`. -/
def recordRawEvent (c : MetricsCollector) : MetricsCollector :=
  { c with metrics :=
      (updateReductionPercentage
        { c.metrics with rawEventCount := c.metrics.rawEventCount + 1 }) }

/-- `recordFlushedEvent()`. -/
def recordFlushedEvent (c : MetricsCollector) : MetricsCollector :=
  { c with metrics :=
      (updateReductionPercentage
        { c.metrics with flushedEventCount := c.metrics.flushedEventCount + 1 }) }

/-- `recordProcessingTime(timeMs)`: push into the 100-sample rolling window
(dropping the oldest past capacity) and recompute the mean. -/
def recordProcessingTime (c : MetricsCollector) (timeMs : ℚ) : MetricsCollector :=
  let times1 := c.eventProcessingTimes ++ [timeMs]
  let times2 := if 100 < times1.length then times1.tail else times1
  updateAverageProcessingTime { c with eventProcessingTimes := times2 }

/-- `updateFPS()` at clock value `now`: push into the 60-sample frame
window and recompute the FPS once at least two samples exist. -/
def updateFPS (c : MetricsCollector) (now : ℚ) : MetricsCollector :=
  let frames1 := c.frameTimestamps ++ [now]
  let frames2 := if 60 < frames1.length then frames1.tail else frames1
  let c1 := { c with frameTimestamps := frames2 }
  if 2 ≤ frames2.length then
    let duration := now - frames2.headI
    { c1 with metrics := { c1.metrics with currentFPS :=
        (jsRound (((frames2.length : ℚ) - 1) / duration * 1000)) } }
  else c1

/-- `updatePollingRate(pollingRate, detectedHz)`. -/
def updatePollingRate (c : MetricsCollector) (pr : PollingRate) (hz : ℤ) :
    MetricsCollector :=
  { c with metrics := { c.metrics with pollingRate := pr, detectedHz := hz } }

/-- `getMetrics()` at clock value `now`: a fresh copy of the record with a
fresh timestamp; the collector itself is unchanged. -/
def getMetrics (c : MetricsCollector) (now : ℚ) : Metrics :=
  { c.metrics with timestamp := now }

/-- `reset()` at clock value `now`. -/
def resetCollector (_c : MetricsCollector) (now : ℚ) : MetricsCollector :=
  mkCollector now

/-- The collector's operations, with clock readings and arguments made
explicit; `snapshot` is a `getMetrics` read (it does not mutate). -/
inductive MOp where
  | recordRaw
  | recordFlushed
  | recordTime (timeMs : ℚ)
  | frame (now : ℚ)
  | setPollingRate (pr : PollingRate) (hz : ℤ)
  | snapshot (now : ℚ)
  | reset (now : ℚ)
deriving Repr

/-- One operation's effect on the collector state. -/
def applyMOp (c : MetricsCollector) : MOp → MetricsCollector
  | .recordRaw => recordRawEvent c
  | .recordFlushed => recordFlushedEvent c
  | .recordTime t => recordProcessingTime c t
  | .frame now => updateFPS c now
  | .setPollingRate pr hz => updatePollingRate c pr hz
  | .snapshot _ => c
  | .reset now => resetCollector c now

/-- Running a sequence of operations from a freshly constructed collector. -/
def runMOps (now0 : ℚ) (ops : List MOp) : MetricsCollector :=
  ops.foldl applyMOp (mkCollector now0)

/-! ## YieldScheduler (src/scheduler/YieldScheduler.ts)

The host environment is a record of capability flags: whether `window`
exists, whether `window.scheduler` is a truthy object, whether
`scheduler.yield` is a function, and whether invoking `scheduler.yield()`
throws.  The async control flow is linear, so `processWithYield` is
embedded in the `Except` monad — an uncaught exception propagates as
`.error` — and returns the list of yield primitives actually invoked
(recording the argument list passed to the native call) together with the
number of times the callback ran. -/

structure SchedulerEnv where
  hasWindow : Bool
  hasSchedulerObj : Bool
  hasYieldFn : Bool
  yieldFails : Bool
deriving DecidableEq, Repr

/-- A yield primitive invocation: the native `scheduler.yield`, recording
the optional priority argument it was invoked with, or the `setTimeout 0`
fallback. -/
inductive YieldAction where
  | nativeYield (arg : Option Priority)
  | fallbackTimeout
deriving DecidableEq, Repr

/-- `isSchedulerSupported()`: `window` exists, `'scheduler' in window`,
and `typeof window.scheduler.yield === 'function'`. -/
def isSchedulerSupported (env : SchedulerEnv) : Bool :=
  env.hasWindow && env.hasSchedulerObj && env.hasYieldFn

/-- `fallbackYield()`: a zero-delay-timer promise; never throws. -/
def fallbackYield : Except Unit (List YieldAction) :=
  .ok [.fallbackTimeout]

/-- `await scheduler.yield()` — invoked with no argument; throws when the
environment makes the native primitive fail. -/
def schedulerYieldCall (env : SchedulerEnv) : Except Unit (List YieldAction) :=
  if env.yieldFails then .error () else .ok [.nativeYield none]

/-- The body of `yieldToScheduler`'s `try` block: re-check that
`scheduler` and `scheduler.yield` are truthy, then call the primitive;
otherwise perform no yield at all. -/
def yieldTryBody (env : SchedulerEnv) (_priority : Priority) :
    Except Unit (List YieldAction) :=
  if env.hasSchedulerObj && env.hasYieldFn then schedulerYieldCall env
  else .ok []

/-- `yieldToScheduler(priority)`: the `try` body with a `catch` that falls
back to `fallbackYield`. -/
def yieldToScheduler (env : SchedulerEnv) (priority : Priority) :
    Except Unit (List YieldAction) :=
  match yieldTryBody env priority with
  | .ok acts => .ok acts
  | .error _ => fallbackYield

/-- `processWithYield(callback, priority)`: yield via the native scheduler
when supported, else via the fallback, then invoke the callback once.
Returns the yield actions performed and the number of callback
invocations; an uncaught exception would propagate as `.error` and skip
the callback. -/
def processWithYield (env : SchedulerEnv) (priority : Priority) :
    Except Unit (List YieldAction × ℕ) := do
  let acts ←
    if isSchedulerSupported env then yieldToScheduler env priority
    else fallbackYield
  return (acts, 1)

/-- Component-wise sum of the delta fields of a sequence of events. -/
def sumDeltas (es : List DomEvent) : AccumulatedDeltas :=
  ⟨(es.map (fun e => e.deltaX)).sum,
   (es.map (fun e => e.deltaY)).sum,
   (es.map (fun e => e.deltaZ)).sum⟩

/-- Invariant of reachable buffer states: no pending event means the
accumulated deltas are zero, and no scheduled flush means no pending
event. -/
def BufInv (s : SamplingBuffer) : Prop :=
  (s.latestEvent = none → s.accumulatedDeltas = ⟨0, 0, 0⟩) ∧
  (s.rafScheduled = false → s.latestEvent = none)

/-- The reduction-percentage field is in sync with the raw and flushed
counters. -/
def RedInv (c : MetricsCollector) : Prop :=
  c.metrics.reductionPercentage =
    (if c.metrics.rawEventCount = 0 then 0
     else jsRound (100 * ((c.metrics.rawEventCount : ℚ)
        - (c.metrics.flushedEventCount : ℚ)) / (c.metrics.rawEventCount : ℚ)))

/-- Counting the raw-record and flushed-record operations since the most
recent reset. -/
def stepCount (p : ℕ × ℕ) : MOp → ℕ × ℕ
  | .recordRaw => (p.1 + 1, p.2)
  | .recordFlushed => (p.1, p.2 + 1)
  | .reset _ => (0, 0)
  | _ => p

/-! ## Theorems: sampling buffer -/

theorem buffer_inactive (s : SamplingBuffer) (e : DomEvent) (h : s.isActive = false) :
    buffer s e = s := by
  simp [buffer, h]

theorem buffer_active (s : SamplingBuffer) (e : DomEvent) (h : s.isActive = true) :
    buffer s e =
      { latestEvent := some e
        accumulatedDeltas :=
          if s.shouldAccumulateDeltas && isScrollEvent e then
            ⟨s.accumulatedDeltas.deltaX + e.deltaX,
             s.accumulatedDeltas.deltaY + e.deltaY,
             s.accumulatedDeltas.deltaZ + e.deltaZ⟩
          else s.accumulatedDeltas
        rafScheduled := true
        shouldAccumulateDeltas := s.shouldAccumulateDeltas
        isActive := true } := by
  simp only [buffer, h]
  split <;> split <;> simp_all

theorem bufferAll_nil (s : SamplingBuffer) : bufferAll s [] = s := rfl

theorem bufferAll_cons (s : SamplingBuffer) (e : DomEvent) (es : List DomEvent) :
    bufferAll s (e :: es) = bufferAll (buffer s e) es := rfl

theorem bufferAll_active (s : SamplingBuffer) (es : List DomEvent) (h : s.isActive = true) :
    (bufferAll s es).isActive = true ∧
    (bufferAll s es).shouldAccumulateDeltas = s.shouldAccumulateDeltas := by
  induction es generalizing s with
  | nil => exact ⟨h, rfl⟩
  | cons e es ih =>
      rw [bufferAll_cons]
      have hb := buffer_active s e h
      have := ih (buffer s e) (by rw [hb])
      refine ⟨this.1, ?_⟩
      rw [this.2, hb]

theorem bufferAll_latest (s : SamplingBuffer) (es : List DomEvent)
    (h : s.isActive = true) (hne : es ≠ []) :
    (bufferAll s es).latestEvent = es.getLast? ∧
    (bufferAll s es).rafScheduled = true := by
  induction es generalizing s with
  | nil => exact absurd rfl hne
  | cons e es ih =>
      rw [bufferAll_cons]
      have hb := buffer_active s e h
      cases es with
      | nil => rw [bufferAll_nil, hb]; exact ⟨rfl, rfl⟩
      | cons e2 es2 =>
          have := ih (buffer s e) (by rw [hb]) (List.cons_ne_nil _ _)
          refine ⟨?_, this.2⟩
          rw [this.1, List.getLast?_cons_cons]

theorem bufferAll_acc (s : SamplingBuffer) (es : List DomEvent)
    (h : s.isActive = true) (hacc : s.shouldAccumulateDeltas = true)
    (hall : ∀ e ∈ es, isScrollEvent e = true) :
    (bufferAll s es).accumulatedDeltas.deltaX
        = s.accumulatedDeltas.deltaX + (es.map (fun e => e.deltaX)).sum ∧
    (bufferAll s es).accumulatedDeltas.deltaY
        = s.accumulatedDeltas.deltaY + (es.map (fun e => e.deltaY)).sum ∧
    (bufferAll s es).accumulatedDeltas.deltaZ
        = s.accumulatedDeltas.deltaZ + (es.map (fun e => e.deltaZ)).sum := by
  induction es generalizing s with
  | nil => simp [bufferAll_nil]
  | cons e es ih =>
      rw [bufferAll_cons]
      have hb := buffer_active s e h
      have hscroll := hall e (List.mem_cons_self e es)
      have := ih (buffer s e) (by rw [hb]) (by rw [hb]; exact hacc)
        (fun x hx => hall x (List.mem_cons_of_mem _ hx))
      rw [this.1, this.2.1, this.2.2, hb]
      simp [hacc, hscroll]
      refine ⟨by ring, by ring, by ring⟩

theorem flush_some (s : SamplingBuffer) (e : DomEvent) (h : s.latestEvent = some e) :
    flush s =
      ({ s with latestEvent := none
                accumulatedDeltas := ⟨0, 0, 0⟩
                rafScheduled := false },
       some (e,
         if s.shouldAccumulateDeltas && isScrollEvent e then some s.accumulatedDeltas
         else none)) := by
  simp [flush, h]

theorem flush_none (s : SamplingBuffer) (h : s.latestEvent = none) :
    flush s = ({ s with rafScheduled := false }, none) := by
  simp [flush, h]

theorem fireFlush_sched (s : SamplingBuffer) (h : s.rafScheduled = true) :
    fireFlush s = flush s := by
  simp [fireFlush, h]

theorem fireFlush_unsched (s : SamplingBuffer) (h : s.rafScheduled = false) :
    fireFlush s = (s, none) := by
  simp [fireFlush, h]

theorem bufInv_mk (b : Bool) : BufInv (mkSamplingBuffer b) :=
  ⟨fun _ => rfl, fun _ => rfl⟩

theorem bufInv_step (s : SamplingBuffer) (a : BufAct) (h : BufInv s) :
    BufInv (stepBuf s a) := by
  cases a with
  | submit e =>
      show BufInv (buffer s e)
      by_cases hact : s.isActive = true
      · rw [buffer_active s e hact]
        exact ⟨fun hc => by simp at hc, fun hc => by simp at hc⟩
      · rw [buffer_inactive s e (by simpa using hact)]
        exact h
  | fire =>
      show BufInv (fireFlush s).1
      by_cases hs : s.rafScheduled = true
      · rw [fireFlush_sched s hs]
        cases hl : s.latestEvent with
        | some e =>
            rw [flush_some s e hl]
            exact ⟨fun _ => rfl, fun _ => rfl⟩
        | none =>
            rw [flush_none s hl]
            exact ⟨fun _ => h.1 hl, fun _ => hl⟩
      · rw [fireFlush_unsched s (by simpa using hs)]
        exact h
  | teardown =>
      exact ⟨fun _ => rfl, fun _ => rfl⟩

theorem bufInv_run (b : Bool) (as : List BufAct) : BufInv (runBufActs b as) := by
  rw [runBufActs]
  induction as using List.reverseRecOn with
  | nil => exact bufInv_mk b
  | append_singleton as a ih =>
      rw [List.foldl_append]
      exact bufInv_step _ a ih

theorem fireFlush_acc_zero (s : SamplingBuffer) (h : BufInv s) :
    (fireFlush s).1.accumulatedDeltas = ⟨0, 0, 0⟩ := by
  by_cases hs : s.rafScheduled = true
  · rw [fireFlush_sched s hs]
    cases hl : s.latestEvent with
    | some e => rw [flush_some s e hl]
    | none => rw [flush_none s hl]; exact h.1 hl
  · rw [fireFlush_unsched s (by simpa using hs)]
    exact h.1 (h.2 (by simpa using hs))

/-- C1: submitting any nonempty sequence of events to an active buffer
within one refresh interval yields exactly one delivery when the scheduled
flush fires, and the delivered event is the last-submitted one. -/
theorem buffer_single_delivery_carries_last (s : SamplingBuffer) (es : List DomEvent)
    (hact : s.isActive = true) (hne : es ≠ []) :
    ((fireFlush (bufferAll s es)).2).isSome = true ∧
    ((fireFlush (bufferAll s es)).2).map Prod.fst = es.getLast? := by
  obtain ⟨hl, hs⟩ := bufferAll_latest s es hact hne
  rw [fireFlush_sched _ hs,
    flush_some _ (es.getLast hne) (by rw [hl, List.getLast?_eq_getLast es hne])]
  simp [List.getLast?_eq_getLast es hne]

theorem C1_witness :
    ((fireFlush (bufferAll (mkSamplingBuffer true)
        [⟨"pointermove", 1, 0, 0⟩, ⟨"pointermove", 2, 0, 0⟩])).2).isSome = true ∧
    ((fireFlush (bufferAll (mkSamplingBuffer true)
        [⟨"pointermove", 1, 0, 0⟩, ⟨"pointermove", 2, 0, 0⟩])).2).map Prod.fst
      = [DomEvent.mk "pointermove" 1 0 0, DomEvent.mk "pointermove" 2 0 0].getLast? :=
  buffer_single_delivery_carries_last (mkSamplingBuffer true) _ rfl (List.cons_ne_nil _ _)

theorem solitary_scroll_delivery (s : SamplingBuffer) (w : DomEvent)
    (hact : s.isActive = true) (hsa : s.shouldAccumulateDeltas = true)
    (hz : s.accumulatedDeltas = ⟨0, 0, 0⟩) (hw : isScrollEvent w = true) :
    (fireFlush (buffer s w)).2 = some (w, some ⟨w.deltaX, w.deltaY, w.deltaZ⟩) := by
  rw [buffer_active s w hact, fireFlush_sched _ rfl, flush_some _ w rfl]
  simp [hsa, hw, hz]

/-- C2: wheel deltas accumulate component-wise and reset after flush. -/
theorem wheel_deltas_accumulate_and_reset (s : SamplingBuffer) (es : List DomEvent)
    (hact : s.isActive = true) (hzero : s.accumulatedDeltas = ⟨0, 0, 0⟩)
    (hall : ∀ e ∈ es, isScrollEvent e = true) (hne : es ≠ []) :
    (s.shouldAccumulateDeltas = true →
      (fireFlush (bufferAll s es)).2
          = (es.getLast?).map (fun l => (l, some (sumDeltas es))) ∧
      (fireFlush (bufferAll s es)).1.accumulatedDeltas = ⟨0, 0, 0⟩ ∧
      (∀ w : DomEvent, isScrollEvent w = true →
        (fireFlush (buffer (fireFlush (bufferAll s es)).1 w)).2
            = some (w, some ⟨w.deltaX, w.deltaY, w.deltaZ⟩))) ∧
    (s.shouldAccumulateDeltas = false →
      (fireFlush (bufferAll s es)).2 = (es.getLast?).map (fun l => (l, none))) ∧
    (∀ (b : Bool) (as : List BufAct),
      (fireFlush (runBufActs b as)).1.accumulatedDeltas = ⟨0, 0, 0⟩) := by
  obtain ⟨hl, hs⟩ := bufferAll_latest s es hact hne
  obtain ⟨hact', hsa⟩ := bufferAll_active s es hact
  have hlast := List.getLast?_eq_getLast es hne
  have hmem : es.getLast hne ∈ es := List.getLast_mem hne
  have hscroll := hall _ hmem
  have hflush := flush_some _ (es.getLast hne) (by rw [hl, hlast])
  refine ⟨fun hT => ?_, fun hF => ?_, fun b as => fireFlush_acc_zero _ (bufInv_run b as)⟩
  · have hAcc := bufferAll_acc s es hact hT hall
    have hAccEq : (bufferAll s es).accumulatedDeltas = sumDeltas es := by
      obtain ⟨h1, h2, h3⟩ := hAcc
      rw [hzero] at h1 h2 h3
      simp only at h1 h2 h3
      cases hA : (bufferAll s es).accumulatedDeltas
      rw [hA] at h1 h2 h3
      simp only at h1 h2 h3
      simp only [sumDeltas, AccumulatedDeltas.mk.injEq]
      exact ⟨by rw [h1, zero_add], by rw [h2, zero_add], by rw [h3, zero_add]⟩
    refine ⟨?_, ?_, ?_⟩
    · rw [fireFlush_sched _ hs, hflush, hlast]
      simp [hsa.trans hT, hscroll, hAccEq]
    · rw [fireFlush_sched _ hs, hflush]
    · intro w hw
      rw [fireFlush_sched _ hs, hflush]
      exact solitary_scroll_delivery _ w hact' (hsa.trans hT) rfl hw
  · rw [fireFlush_sched _ hs, hflush, hlast]
    simp [hsa.trans hF]

theorem C2_witness :
    ((mkSamplingBuffer true).shouldAccumulateDeltas = true →
      (fireFlush (bufferAll (mkSamplingBuffer true)
          [⟨"wheel", 1, 2, 3⟩, ⟨"wheel", 4, 5, 6⟩])).2
        = (([⟨"wheel", 1, 2, 3⟩, ⟨"wheel", 4, 5, 6⟩] : List DomEvent).getLast?).map
            (fun l => (l, some (sumDeltas [⟨"wheel", 1, 2, 3⟩, ⟨"wheel", 4, 5, 6⟩]))) ∧
      (fireFlush (bufferAll (mkSamplingBuffer true)
          [⟨"wheel", 1, 2, 3⟩, ⟨"wheel", 4, 5, 6⟩])).1.accumulatedDeltas = ⟨0, 0, 0⟩ ∧
      (∀ w : DomEvent, isScrollEvent w = true →
        (fireFlush (buffer (fireFlush (bufferAll (mkSamplingBuffer true)
            [⟨"wheel", 1, 2, 3⟩, ⟨"wheel", 4, 5, 6⟩])).1 w)).2
          = some (w, some ⟨w.deltaX, w.deltaY, w.deltaZ⟩))) ∧
    ((mkSamplingBuffer true).shouldAccumulateDeltas = false →
      (fireFlush (bufferAll (mkSamplingBuffer true)
          [⟨"wheel", 1, 2, 3⟩, ⟨"wheel", 4, 5, 6⟩])).2
        = (([⟨"wheel", 1, 2, 3⟩, ⟨"wheel", 4, 5, 6⟩] : List DomEvent).getLast?).map
            (fun l => (l, none))) ∧
    (∀ (b : Bool) (as : List BufAct),
      (fireFlush (runBufActs b as)).1.accumulatedDeltas = ⟨0, 0, 0⟩) :=
  wheel_deltas_accumulate_and_reset (mkSamplingBuffer true)
    [⟨"wheel", 1, 2, 3⟩, ⟨"wheel", 4, 5, 6⟩] rfl rfl
    (by decide) (List.cons_ne_nil _ _)

/-- C3: a destroyed buffer is inert and destroy is idempotent. -/
theorem destroyed_buffer_is_inert (s : SamplingBuffer) (es : List DomEvent) :
    bufferAll (destroy s) es = destroy s ∧
    fireFlush (destroy s) = (destroy s, none) ∧
    fireFlush (bufferAll (destroy s) es) = (destroy s, none) ∧
    destroy (destroy s) = destroy s := by
  have hb : bufferAll (destroy s) es = destroy s := by
    induction es with
    | nil => rfl
    | cons e es ih =>
        rw [bufferAll_cons, buffer_inactive (destroy s) e rfl]
        exact ih
  have hf : fireFlush (destroy s) = (destroy s, none) := fireFlush_unsched _ rfl
  exact ⟨hb, hf, by rw [hb]; exact hf, rfl⟩

/-- C10: flushing a pending non-scroll event with accumulation enabled
delivers no deltas and silently resets the accumulated deltas. -/
theorem flush_nonscroll_discards_deltas (s : SamplingBuffer) (e : DomEvent)
    (hp : s.latestEvent = some e) (hns : isScrollEvent e = false)
    (_hacc : s.shouldAccumulateDeltas = true) (hsch : s.rafScheduled = true) :
    (fireFlush s).2 = some (e, none) ∧
    (fireFlush s).1.accumulatedDeltas = ⟨0, 0, 0⟩ := by
  rw [fireFlush_sched s hsch, flush_some s e hp]
  simp [hns]

theorem C10_witness :
    (fireFlush ⟨some ⟨"pointermove", 0, 0, 0⟩, ⟨5, 7, 9⟩, true, true, true⟩).2
        = some (⟨"pointermove", 0, 0, 0⟩, none) ∧
    (fireFlush (⟨some ⟨"pointermove", 0, 0, 0⟩, ⟨5, 7, 9⟩, true, true,
        true⟩ : SamplingBuffer)).1.accumulatedDeltas = ⟨0, 0, 0⟩ :=
  flush_nonscroll_discards_deltas _ _ rfl rfl rfl rfl

/-! ## Theorems: polling-rate detector -/

theorem detect_cached (s : PollingRateDetector) (t : ℚ) (r : PollingRate)
    (h : s.cachedPollingRate = some r) :
    detectPollingRate s t = (s, r) := by
  simp [detectPollingRate, h]

theorem detectAll_cached (s : PollingRateDetector) (r : PollingRate) (ts : List ℚ)
    (h : s.cachedPollingRate = some r) :
    detectAll s ts = (s, ts.map fun _ => r) := by
  induction ts with
  | nil => rfl
  | cons t ts ih =>
      show detectAll s (t :: ts) = _
      rw [detectAll, detect_cached s t r h]
      simp only [ih]
      rfl

theorem detectAll_append (s : PollingRateDetector) (as bs : List ℚ) :
    detectAll s (as ++ bs)
      = ((detectAll (detectAll s as).1 bs).1,
         (detectAll s as).2 ++ (detectAll (detectAll s as).1 bs).2) := by
  induction as generalizing s with
  | nil => simp [detectAll]
  | cons a as ih =>
      rw [List.cons_append, detectAll, detectAll, ih]
      rfl

theorem detect_step_small (s : PollingRateDetector) (t : ℚ)
    (hc : s.cachedPollingRate = none) (hlen : s.eventTimestamps.length < 9) :
    detectPollingRate s t
      = ({ s with eventTimestamps := s.eventTimestamps ++ [t] },
         PollingRate.unknown) := by
  have h0 : ¬ 10 < (s.eventTimestamps ++ [t]).length := by
    simp only [List.length_append, List.length_cons, List.length_nil]; omega
  have h1 : (s.eventTimestamps ++ [t]).length < 10 := by
    simp only [List.length_append, List.length_cons, List.length_nil]; omega
  simp only [detectPollingRate, hc, if_neg h0, if_pos h1]

theorem detect_unknown_batch (ts : List ℚ) (s : PollingRateDetector)
    (hc : s.cachedPollingRate = none)
    (hlen : s.eventTimestamps.length + ts.length ≤ 9) :
    detectAll s ts
      = ({ s with eventTimestamps := s.eventTimestamps ++ ts },
         ts.map fun _ => PollingRate.unknown) := by
  induction ts generalizing s with
  | nil => simp [detectAll]
  | cons t ts ih =>
      rw [detectAll, detect_step_small s t hc
        (by simp only [List.length_cons] at hlen; omega)]
      have := ih { s with eventTimestamps := s.eventTimestamps ++ [t] }
        (by simpa using hc)
        (by show (s.eventTimestamps ++ [t]).length + ts.length ≤ 9
            simp only [List.length_append, List.length_cons, List.length_nil] at hlen ⊢
            omega)
      simp only [this, List.append_assoc, List.singleton_append]
      rfl

theorem detect_step_full (s : PollingRateDetector) (t : ℚ)
    (hc : s.cachedPollingRate = none) (hlen : s.eventTimestamps.length = 9) :
    detectPollingRate s t
      = ({ eventTimestamps := s.eventTimestamps ++ [t]
           cachedPollingRate := some
             (if 5 ≤ ((calculateDeltas (s.eventTimestamps ++ [t])).filter
                 (fun d => d < 1)).length
              then PollingRate.high else PollingRate.standard)
           detectedHz := estimateHz (calculateDeltas (s.eventTimestamps ++ [t])) },
         if 5 ≤ ((calculateDeltas (s.eventTimestamps ++ [t])).filter
             (fun d => d < 1)).length
         then PollingRate.high else PollingRate.standard) := by
  have h0 : ¬ 10 < (s.eventTimestamps ++ [t]).length := by
    simp only [List.length_append, List.length_cons, List.length_nil, hlen]; omega
  have h1 : ¬ (s.eventTimestamps ++ [t]).length < 10 := by
    simp only [List.length_append, List.length_cons, List.length_nil, hlen]; omega
  simp only [detectPollingRate, hc, if_neg h0, if_neg h1]

theorem detect_full_run (as : List ℚ) (t : ℚ) (h9 : as.length = 9) :
    detectAll mkDetector (as ++ [t])
      = ({ eventTimestamps := as ++ [t]
           cachedPollingRate := some
             (if 5 ≤ ((calculateDeltas (as ++ [t])).filter (fun d => d < 1)).length
              then PollingRate.high else PollingRate.standard)
           detectedHz := estimateHz (calculateDeltas (as ++ [t])) },
         (as.map fun _ => PollingRate.unknown) ++
           [if 5 ≤ ((calculateDeltas (as ++ [t])).filter (fun d => d < 1)).length
            then PollingRate.high else PollingRate.standard]) := by
  rw [detectAll_append]
  rw [detect_unknown_batch as mkDetector rfl (by simp [mkDetector, h9])]
  have hs : ({ mkDetector with eventTimestamps := mkDetector.eventTimestamps ++ as }
      : PollingRateDetector) = ⟨as, none, 0⟩ := by
    simp [mkDetector]
  rw [hs]
  rw [show detectAll (⟨as, none, 0⟩ : PollingRateDetector) [t]
      = ((detectPollingRate ⟨as, none, 0⟩ t).1, [(detectPollingRate ⟨as, none, 0⟩ t).2])
    from rfl]
  rw [detect_step_full ⟨as, none, 0⟩ t rfl h9]

/-- C4: the detector returns unknown until the 10-sample window is full,
then classifies by counting sub-millisecond deltas and estimates Hz. -/
theorem detector_classification_rule :
    (∀ ts : List ℚ, ts.length < 10 →
      (detectAll mkDetector ts).2 = ts.map fun _ => PollingRate.unknown) ∧
    (∀ ts : List ℚ, ts.length = 10 →
      (detectAll mkDetector ts).2.getLast?
          = some (if 5 ≤ ((calculateDeltas ts).filter (fun d => d < 1)).length
                  then PollingRate.high else PollingRate.standard) ∧
      (detectAll mkDetector ts).1.detectedHz = estimateHz (calculateDeltas ts) ∧
      ((∀ d ∈ calculateDeltas ts, 0 ≤ d) →
        (detectAll mkDetector ts).1.detectedHz =
          (if (calculateDeltas ts).sum / ((calculateDeltas ts).length : ℚ) = 0 then 0
           else jsRound (1000 /
             ((calculateDeltas ts).sum / ((calculateDeltas ts).length : ℚ)))))) ∧
    ((detectAll mkDetector [0, 1/8, 2/8, 3/8, 4/8, 5/8, 6/8, 7/8, 1, 9/8]).2.getLast?
        = some PollingRate.high ∧
     1000 < (detectAll mkDetector
        [0, 1/8, 2/8, 3/8, 4/8, 5/8, 6/8, 7/8, 1, 9/8]).1.detectedHz ∧
     (detectAll mkDetector [0, 8, 16, 24, 32, 40, 48, 56, 64, 72]).2.getLast?
        = some PollingRate.standard ∧
     (detectAll mkDetector [0, 8, 16, 24, 32, 40, 48, 56, 64, 72]).1.detectedHz < 200) := by
  refine ⟨fun ts hlen => ?_, fun ts hlen => ?_, ?_⟩
  · rw [detect_unknown_batch ts mkDetector rfl (by simp [mkDetector]; omega)]
  · have hne : ts ≠ [] := by
      intro h
      rw [h] at hlen
      simp at hlen
    have hsplit := List.dropLast_concat_getLast hne
    have h9 : ts.dropLast.length = 9 := by
      rw [List.length_dropLast, hlen]
    have hrun := detect_full_run ts.dropLast (ts.getLast hne) h9
    rw [hsplit] at hrun
    have hz9 : (calculateDeltas ts).length = 9 := by
      rw [calculateDeltas, List.length_zipWith, List.length_tail, hlen]
      decide
    refine ⟨?_, ?_, ?_⟩
    · rw [hrun]
      simp [List.getLast?_concat]
    · rw [hrun]
    · intro hd
      rw [hrun]
      simp only
      have hsum : 0 ≤ (calculateDeltas ts).sum := List.sum_nonneg hd
      rw [estimateHz]
      simp only [hz9]
      norm_num
      rcases eq_or_lt_of_le hsum with h | h
      · rw [← h]
        simp
      · rw [if_pos h, if_neg (ne_of_gt h)]
  · refine ⟨?_, ?_, ?_, ?_⟩ <;>
      norm_num [detectAll, detectPollingRate, mkDetector, calculateDeltas,
        estimateHz, jsRound]

theorem C4_witness :
    (detectAll mkDetector [(0 : ℚ)]).2 = List.map (fun _ => PollingRate.unknown) [(0 : ℚ)] ∧
    (detectAll mkDetector [0, 8, 16, 24, 32, 40, 48, 56, 64, 72]).1.detectedHz =
      (if (calculateDeltas [0, 8, 16, 24, 32, 40, 48, 56, 64, 72]).sum /
          ((calculateDeltas [0, 8, 16, 24, 32, 40, 48, 56, 64, 72]).length : ℚ) = 0 then 0
       else jsRound (1000 /
         ((calculateDeltas [0, 8, 16, 24, 32, 40, 48, 56, 64, 72]).sum /
          ((calculateDeltas [0, 8, 16, 24, 32, 40, 48, 56, 64, 72]).length : ℚ)))) :=
  ⟨detector_classification_rule.1 [(0 : ℚ)] (by norm_num),
   (detector_classification_rule.2.1 [0, 8, 16, 24, 32, 40, 48, 56, 64, 72] rfl).2.2
     (by norm_num [calculateDeltas])⟩

/-- C5: a non-unknown classification is cached and returned unchanged by
every later call, until reset restores the initial state. -/
theorem detector_caches_until_reset :
    (∀ (s : PollingRateDetector) (t : ℚ),
      (detectPollingRate s t).2 ≠ PollingRate.unknown →
      (detectPollingRate s t).1.cachedPollingRate = some (detectPollingRate s t).2) ∧
    (∀ (s : PollingRateDetector) (r : PollingRate) (ts : List ℚ),
      s.cachedPollingRate = some r →
      detectAll s ts = (s, ts.map fun _ => r)) ∧
    (∀ s : PollingRateDetector, resetDetector s = mkDetector) := by
  refine ⟨fun s t h => ?_, fun s r ts h => detectAll_cached s r ts h, fun s => rfl⟩
  cases hc : s.cachedPollingRate with
  | some r =>
      rw [detect_cached s t r hc]
      exact hc
  | none =>
      simp only [detectPollingRate, hc] at h ⊢
      set w := if 10 < (s.eventTimestamps ++ [t]).length
          then (s.eventTimestamps ++ [t]).tail
          else s.eventTimestamps ++ [t] with hw
      by_cases hlt : w.length < 10
      · rw [if_pos hlt] at h
        simp at h
      · rw [if_neg hlt] at h ⊢

theorem C5_witness :
    (detectPollingRate ⟨[0, 8, 16, 24, 32, 40, 48, 56, 64], none, 0⟩ 72).1.cachedPollingRate
        = some (detectPollingRate ⟨[0, 8, 16, 24, 32, 40, 48, 56, 64], none, 0⟩ 72).2 ∧
    detectAll ⟨[], some PollingRate.high, 8000⟩ [(0 : ℚ)]
        = (⟨[], some PollingRate.high, 8000⟩, [PollingRate.high]) ∧
    resetDetector mkDetector = mkDetector :=
  ⟨detector_caches_until_reset.1 ⟨[0, 8, 16, 24, 32, 40, 48, 56, 64], none, 0⟩ 72
      (by norm_num [detectPollingRate, calculateDeltas, estimateHz, jsRound]; decide),
   detector_caches_until_reset.2.1 ⟨[], some PollingRate.high, 8000⟩ PollingRate.high
      [(0 : ℚ)] rfl,
   detector_caches_until_reset.2.2 mkDetector⟩

/-! ## Theorems: metrics collector -/

theorem updateReductionPercentage_raw (m : Metrics) :
    (updateReductionPercentage m).rawEventCount = m.rawEventCount := by
  rw [updateReductionPercentage]
  split <;> rfl

theorem updateReductionPercentage_flushed (m : Metrics) :
    (updateReductionPercentage m).flushedEventCount = m.flushedEventCount := by
  rw [updateReductionPercentage]
  split <;> rfl

theorem redInv_congr (c c' : MetricsCollector)
    (hr : c'.metrics.rawEventCount = c.metrics.rawEventCount)
    (hf : c'.metrics.flushedEventCount = c.metrics.flushedEventCount)
    (hp : c'.metrics.reductionPercentage = c.metrics.reductionPercentage)
    (h : RedInv c) : RedInv c' := by
  rw [RedInv, hr, hf, hp]
  exact h

theorem redInv_update (m : Metrics) : RedInv ⟨updateReductionPercentage m, [], []⟩ := by
  show (updateReductionPercentage m).reductionPercentage = _
  rw [updateReductionPercentage_raw, updateReductionPercentage_flushed,
    updateReductionPercentage]
  split
  · rfl
  · exact congrArg jsRound (by ring)

theorem updateAverageProcessingTime_fields (c : MetricsCollector) :
    (updateAverageProcessingTime c).metrics.rawEventCount = c.metrics.rawEventCount ∧
    (updateAverageProcessingTime c).metrics.flushedEventCount
        = c.metrics.flushedEventCount ∧
    (updateAverageProcessingTime c).metrics.reductionPercentage
        = c.metrics.reductionPercentage := by
  rw [updateAverageProcessingTime]
  split <;> exact ⟨rfl, rfl, rfl⟩

theorem updateFPS_fields (c : MetricsCollector) (now : ℚ) :
    (updateFPS c now).metrics.rawEventCount = c.metrics.rawEventCount ∧
    (updateFPS c now).metrics.flushedEventCount = c.metrics.flushedEventCount ∧
    (updateFPS c now).metrics.reductionPercentage = c.metrics.reductionPercentage := by
  rw [updateFPS]
  simp only
  split <;> split <;> exact ⟨rfl, rfl, rfl⟩

theorem redInv_apply (c : MetricsCollector) (op : MOp) (h : RedInv c) :
    RedInv (applyMOp c op) := by
  cases op with
  | recordRaw =>
      exact redInv_congr _ _ rfl rfl rfl (redInv_update
        { c.metrics with rawEventCount := c.metrics.rawEventCount + 1 })
  | recordFlushed =>
      exact redInv_congr _ _ rfl rfl rfl (redInv_update
        { c.metrics with flushedEventCount := c.metrics.flushedEventCount + 1 })
  | recordTime t =>
      have hf := updateAverageProcessingTime_fields
        { c with eventProcessingTimes :=
            if 100 < (c.eventProcessingTimes ++ [t]).length
            then (c.eventProcessingTimes ++ [t]).tail
            else c.eventProcessingTimes ++ [t] }
      exact redInv_congr c _ hf.1 hf.2.1 hf.2.2 h
  | frame now =>
      have hf := updateFPS_fields c now
      exact redInv_congr c _ hf.1 hf.2.1 hf.2.2 h
  | setPollingRate pr hz => exact h
  | snapshot now => exact h
  | reset now => rfl

/-- C6: after every operation sequence the reported reduction percentage
is round(100*(raw-flushed)/raw), and 0 when raw is 0. -/
theorem metrics_reduction_percentage_invariant (now0 : ℚ) (ops : List MOp) :
    (runMOps now0 ops).metrics.reductionPercentage =
      (if (runMOps now0 ops).metrics.rawEventCount = 0 then 0
       else jsRound (100 * (((runMOps now0 ops).metrics.rawEventCount : ℚ)
          - ((runMOps now0 ops).metrics.flushedEventCount : ℚ))
          / ((runMOps now0 ops).metrics.rawEventCount : ℚ))) := by
  show RedInv (runMOps now0 ops)
  rw [runMOps]
  induction ops using List.reverseRecOn with
  | nil => rfl
  | append_singleton ops op ih =>
      rw [List.foldl_append]
      exact redInv_apply _ op ih

theorem C7_counterexample :
    ¬ ((runMOps 0 [MOp.recordFlushed]).metrics.flushedEventCount ≤
       (runMOps 0 [MOp.recordFlushed]).metrics.rawEventCount) := by
  decide

theorem countSinceReset_spec (ops : List MOp) (c : MetricsCollector) (p : ℕ × ℕ)
    (hr : c.metrics.rawEventCount = p.1) (hf : c.metrics.flushedEventCount = p.2) :
    (ops.foldl applyMOp c).metrics.rawEventCount
        = (ops.foldl stepCount p).1 ∧
    (ops.foldl applyMOp c).metrics.flushedEventCount
        = (ops.foldl stepCount p).2 := by
  induction ops generalizing c p with
  | nil => exact ⟨hr, hf⟩
  | cons op ops ih =>
      cases op with
      | recordRaw =>
          refine ih _ _ ?_ ?_
          · show (updateReductionPercentage _).rawEventCount = _
            rw [updateReductionPercentage_raw]
            show c.metrics.rawEventCount + 1 = p.1 + 1
            rw [hr]
          · show (updateReductionPercentage _).flushedEventCount = _
            rw [updateReductionPercentage_flushed]
            exact hf
      | recordFlushed =>
          refine ih _ _ ?_ ?_
          · show (updateReductionPercentage _).rawEventCount = _
            rw [updateReductionPercentage_raw]
            exact hr
          · show (updateReductionPercentage _).flushedEventCount = _
            rw [updateReductionPercentage_flushed]
            show c.metrics.flushedEventCount + 1 = p.2 + 1
            rw [hf]
      | recordTime t =>
          have hfl := updateAverageProcessingTime_fields
            { c with eventProcessingTimes :=
                if 100 < (c.eventProcessingTimes ++ [t]).length
                then (c.eventProcessingTimes ++ [t]).tail
                else c.eventProcessingTimes ++ [t] }
          exact ih _ _ (hfl.1.trans hr) (hfl.2.1.trans hf)
      | frame now =>
          have hfl := updateFPS_fields c now
          exact ih _ _ (hfl.1.trans hr) (hfl.2.1.trans hf)
      | setPollingRate pr hz => exact ih _ _ hr hf
      | snapshot now => exact ih _ _ hr hf
      | reset now => exact ih _ _ rfl rfl

/-- C7 (amended): raw ≥ flushed holds after every operation sequence in
which, since the most recent reset, at least as many raw-event as
flushed-event recordings occurred. -/
theorem metrics_raw_ge_flushed_of_balanced (now0 : ℚ) (ops : List MOp)
    (h : (ops.foldl stepCount (0, 0)).2 ≤ (ops.foldl stepCount (0, 0)).1) :
    (runMOps now0 ops).metrics.flushedEventCount ≤
      (runMOps now0 ops).metrics.rawEventCount := by
  obtain ⟨hr, hf⟩ := countSinceReset_spec ops (mkCollector now0) (0, 0) rfl rfl
  rw [runMOps, hr, hf]
  exact h

theorem C7_witness :
    (([MOp.recordRaw, MOp.recordFlushed].foldl stepCount (0, 0)).2
        ≤ ([MOp.recordRaw, MOp.recordFlushed].foldl stepCount (0, 0)).1) ∧
    (runMOps 0 [MOp.recordRaw, MOp.recordFlushed]).metrics.flushedEventCount ≤
      (runMOps 0 [MOp.recordRaw, MOp.recordFlushed]).metrics.rawEventCount :=
  ⟨by decide, metrics_raw_ge_flushed_of_balanced 0 _ (by decide)⟩

/-! ## Theorems: yield scheduler -/

/-- C8: processWithYield never propagates an error and always runs the
callback exactly once, using the timer fallback when the native yield is
absent or fails. -/
theorem processWithYield_never_errors (env : SchedulerEnv) (p : Priority) :
    (processWithYield env p).map Prod.snd = Except.ok 1 ∧
    ((isSchedulerSupported env = false ∨ env.yieldFails = true) →
      processWithYield env p = Except.ok ([YieldAction.fallbackTimeout], 1)) := by
  rcases env with ⟨hw, hs, hy, hf⟩
  cases hw <;> cases hs <;> cases hy <;> cases hf <;>
    simp [processWithYield, isSchedulerSupported, yieldToScheduler, yieldTryBody,
      schedulerYieldCall, fallbackYield, Except.map]

theorem C8_witness :
    processWithYield ⟨true, true, true, true⟩ Priority.background
      = Except.ok ([YieldAction.fallbackTimeout], 1) :=
  (processWithYield_never_errors ⟨true, true, true, true⟩ Priority.background).2
    (Or.inr rfl)

theorem C9_counterexample :
    processWithYield ⟨true, true, true, false⟩ Priority.userVisible
        = Except.ok ([YieldAction.nativeYield none], 1) ∧
    YieldAction.nativeYield (some Priority.userVisible)
        ∉ [YieldAction.nativeYield none] := by
  constructor
  · rfl
  · decide

/-- C9 (amended): when the native scheduler is supported and its yield does
not fail, the native primitive is invoked exactly once with no argument;
the caller's priority is not forwarded to the native call. -/
theorem native_yield_invoked_without_priority (env : SchedulerEnv) (p : Priority)
    (hsup : isSchedulerSupported env = true) (hok : env.yieldFails = false) :
    processWithYield env p = Except.ok ([YieldAction.nativeYield none], 1) := by
  rcases env with ⟨hw, hs, hy, hf⟩
  simp only [isSchedulerSupported, Bool.and_eq_true] at hsup
  obtain ⟨⟨hw1, hs1⟩, hy1⟩ := hsup
  subst hw1 hs1 hy1
  cases hf
  · simp [processWithYield, isSchedulerSupported, yieldToScheduler, yieldTryBody,
      schedulerYieldCall]
  · simp at hok

theorem C9_witness :
    processWithYield ⟨true, true, true, false⟩ Priority.background
      = Except.ok ([YieldAction.nativeYield none], 1) :=
  native_yield_invoked_without_priority ⟨true, true, true, false⟩ Priority.background
    rfl rfl

end InputBuffer
